import Mathlib

/-
Verification of the multi-agent project-management coordinator
(`multi_agent_pm`): the task store, load registry, the manager, engineer
and tester operations, and the workload rebalancer, shallowly embedded
from the Python sources.  Python dictionaries are modelled as
insertion-ordered association lists (Python 3.7+ dicts preserve insertion
order, which the assignment and rebalancing algorithms rely on), Python
floats by exact rationals, datetimes by an abstract `Nat` tick passed in
by the caller, and `HTTPException` / unhandled `KeyError` by structured
result constructors.
-/

namespace MultiAgentPm

/-- Task status enumeration, from `common.py` `TaskStatus`. -/
inductive TaskStatus
  | pending
  | in_progress
  | completed
  | failed
  | testing
  | approved
  | rejected
deriving DecidableEq, Repr

/-- Task priority enumeration, from `common.py` `TaskPriority`. -/
inductive TaskPriority
  | low
  | medium
  | high
  | critical
deriving DecidableEq, Repr

/-- Task type enumeration, from `common.py` `TaskType`.  `docType` models
the `DOCUMENTATION = "documentation"` enum value. -/
inductive TaskType
  | feature
  | bug
  | improvement
  | docType
deriving DecidableEq, Repr

/-- The `test_results` dict attached by `api_submit_test_results`
(keys: tester, timestamp, status, notes). -/
structure TestResultInfo where
  tester : String
  timestamp : String
  result_status : String
  notes : String
deriving DecidableEq, Repr

/-- A task record, from `common.py` `Task`. -/
structure Task where
  id : String
  title : String
  description : String
  status : TaskStatus
  priority : TaskPriority
  task_type : TaskType
  assigned_to : Option String
  created_at : Nat
  updated_at : Nat
  dependencies : List String
  comments : List String
  test_results : Option TestResultInfo
deriving DecidableEq, Repr

/-- An agent's workload record, from `common.py` `AgentLoad`. -/
structure AgentLoad where
  agent_id : String
  agent_type : String
  current_tasks : Int
  max_capacity : Int
deriving DecidableEq, Repr

/-- `AgentLoad.load_percentage`: `(current_tasks / max_capacity) * 100`,
0 when `max_capacity == 0`.  Python float arithmetic is modelled by exact
rationals. -/
def AgentLoad.load_percentage (l : AgentLoad) : ℚ :=
  if l.max_capacity = 0 then 0
  else ((l.current_tasks : ℚ) / (l.max_capacity : ℚ)) * 100

/-- `AgentLoad.available_capacity`: `max(0, max_capacity - current_tasks)`. -/
def AgentLoad.available_capacity (l : AgentLoad) : Int :=
  max 0 (l.max_capacity - l.current_tasks)

/-- Association-list lookup: first entry with the given key (a Python
dict never has duplicate keys, so this is dict indexing). -/
def lookupA {α : Type} : List (String × α) → String → Option α
  | [], _ => none
  | (k, v) :: rest, key => if k = key then some v else lookupA rest key

/-- Association-list keyed store: replaces the first entry with the given
key, or appends a new entry (Python `d[k] = v`). -/
def setA {α : Type} : List (String × α) → String → α → List (String × α)
  | [], key, v => [(key, v)]
  | (k, w) :: rest, key, v =>
      if k = key then (key, v) :: rest else (k, w) :: setA rest key v

/-- Association-list in-place modification of an existing entry
(Python `d[k].field += ...`); a no-op when the key is absent. -/
def updateA {α : Type} : List (String × α) → String → (α → α) → List (String × α)
  | [], _, _ => []
  | (k, w) :: rest, key, f =>
      if k = key then (k, f w) :: rest else (k, w) :: updateA rest key f

/-- The shared state owned by `WorkflowCoordinator`: `tasks_store` and
`agent_loads`, both insertion-ordered maps. -/
structure SysState where
  tasks_store : List (String × Task)
  agent_loads : List (String × AgentLoad)
deriving DecidableEq, Repr

/-- `TaskPriority(request.priority)` with the `ValueError` fallback to
`MEDIUM` in `api_create_task`. -/
def parsePriority (s : String) : TaskPriority :=
  if s = "low" then .low
  else if s = "medium" then .medium
  else if s = "high" then .high
  else if s = "critical" then .critical
  else .medium

/-- `TaskType(request.task_type)` with the `ValueError` fallback to
`FEATURE` in `api_create_task`. -/
def parseTaskType (s : String) : TaskType :=
  if s = "feature" then .feature
  else if s = "bug" then .bug
  else if s = "improvement" then .improvement
  else if s = "documentation" then .docType
  else .feature

/-- `ManagerAgent.api_create_task`.  The freshly minted uuid-based task id
and the current time are taken as parameters. -/
def api_create_task (s : SysState) (title descr pr ty newId : String) (now : Nat) :
    String × SysState :=
  let task : Task :=
    { id := newId, title := title, description := descr,
      status := .pending, priority := parsePriority pr, task_type := parseTaskType ty,
      assigned_to := none, created_at := now, updated_at := now,
      dependencies := [], comments := [], test_results := none }
  (newId, { s with tasks_store := setA s.tasks_store newId task })

/-- Result of `ManagerAgent.api_assign_task`: success, the early
"No suitable engineers available." return, the `HTTPException(404)` for an
unknown task, or the unhandled Python `KeyError` raised by
`self.agent_loads[agent_id]` for an unknown agent. -/
inductive AssignRes
  | assigned (agent_id : String)
  | noEngineers
  | notFound (task_id : String)
  | keyError (key : String)
deriving DecidableEq, Repr

/-- The engineers of the registry in iteration order: the
`suitable_agents` list built by `api_assign_task`. -/
def engineersOf (loads : List (String × AgentLoad)) : List (String × AgentLoad) :=
  loads.filter (fun p => p.2.agent_type = "engineer")

/-- One step of Python `min(suitable_agents, key=lambda x: x[1].load_percentage)`:
`min` keeps the earlier element on ties, replacing only on a strictly
smaller key. -/
def minStep (best y : String × AgentLoad) : String × AgentLoad :=
  if y.2.load_percentage < best.2.load_percentage then y else best

/-- `min(suitable_agents, key=lambda x: x[1].load_percentage)` (first
minimum in list order), `none` on an empty list. -/
def minByLoad : List (String × AgentLoad) → Option (String × AgentLoad)
  | [] => none
  | x :: xs => some (xs.foldl minStep x)

/-- `ManagerAgent.api_assign_task`.  Mirrors the source exactly: the task
is looked up (404 when absent); an explicit non-falsy `agent_id` is used
as-is, otherwise the least-loaded engineer is picked (early return when
no engineers exist); the task is then mutated (assigned_to, status,
updated_at) BEFORE `self.agent_loads[agent_id].current_tasks += 1`, which
raises `KeyError` when the agent is unknown -- leaving the task already
mutated in the shared store. -/
def api_assign_task (s : SysState) (task_id : String) (agentReq : Option String)
    (now : Nat) : AssignRes × SysState :=
  match lookupA s.tasks_store task_id with
  | none => (.notFound task_id, s)
  | some task =>
    let requested : Option String :=
      match agentReq with
      | some a => if a = "" then none else some a
      | none => none
    let picked : Option String :=
      match requested with
      | some a => some a
      | none => (minByLoad (engineersOf s.agent_loads)).map Prod.fst
    match picked with
    | none => (.noEngineers, s)
    | some agent_id =>
      let task2 := { task with assigned_to := some agent_id,
                               status := TaskStatus.in_progress, updated_at := now }
      let s2 := { s with tasks_store := setA s.tasks_store task_id task2 }
      match lookupA s2.agent_loads agent_id with
      | none => (.keyError agent_id, s2)
      | some load =>
        let load2 := { load with current_tasks := load.current_tasks + 1 }
        (.assigned agent_id, { s2 with agent_loads := setA s2.agent_loads agent_id load2 })

/-- Result of `ManagerAgent.api_review_task`: approval/rejection success,
the 404 for an unknown task, the structured "not ready for review"
response, or the unhandled `KeyError` raised by
`self.agent_loads[task.assigned_to]` when the assignee is unknown. -/
inductive ReviewRes
  | approvedOk
  | rejectedOk
  | notFound (task_id : String)
  | notReady (st : TaskStatus)
  | keyError (key : String)
deriving DecidableEq, Repr

/-- The loop `for agent_id, load in self.agent_loads.items(): if
load.agent_type == "tester" and task.assigned_to == agent_id:
load.current_tasks -= 1; break` from `api_review_task`'s approval path. -/
def decrFirstAssignedTester (loads : List (String × AgentLoad)) (assigned : Option String) :
    List (String × AgentLoad) :=
  match loads with
  | [] => []
  | (k, l) :: rest =>
    if l.agent_type = "tester" ∧ assigned = some k then
      (k, { l with current_tasks := l.current_tasks - 1 }) :: rest
    else
      (k, l) :: decrFirstAssignedTester rest assigned

/-- `ManagerAgent.api_review_task`.  Faithful to the source order: the
status is overwritten to APPROVED/REJECTED first; the comment is appended;
on rejection the status becomes PENDING, the assignee's counter is
decremented (`KeyError` when the assignee is not in the registry, with the
task already mutated) and `assigned_to` is cleared; on approval the
tester-decrement loop tests `task.status == TaskStatus.TESTING` AFTER the
status was overwritten to APPROVED, so it never fires. -/
def api_review_task (s : SysState) (task_id : String) (approve : Bool)
    (comment : Option String) (now : Nat) : ReviewRes × SysState :=
  match lookupA s.tasks_store task_id with
  | none => (.notFound task_id, s)
  | some task =>
    if ¬ (task.status = TaskStatus.completed ∨ task.status = TaskStatus.testing) then
      (.notReady task.status, s)
    else
      let task1 := { task with
        status := if approve then TaskStatus.approved else TaskStatus.rejected,
        updated_at := now }
      let task2 := match comment with
        | some c =>
            { task1 with comments :=
                task1.comments ++ ["[" ++ toString now ++ "] ProjectManager: " ++ c] }
        | none => task1
      if approve then
        let loads2 :=
          if task2.status = TaskStatus.testing then
            decrFirstAssignedTester s.agent_loads task2.assigned_to
          else s.agent_loads
        (.approvedOk,
         { tasks_store := setA s.tasks_store task_id task2, agent_loads := loads2 })
      else
        let task3 := { task2 with status := TaskStatus.pending }
        match task3.assigned_to with
        | none =>
          (.rejectedOk, { s with tasks_store := setA s.tasks_store task_id task3 })
        | some w =>
          match lookupA s.agent_loads w with
          | none =>
            (.keyError w, { s with tasks_store := setA s.tasks_store task_id task3 })
          | some _ =>
            let task4 := { task3 with assigned_to := none }
            (.rejectedOk,
             { tasks_store := setA s.tasks_store task_id task4,
               agent_loads := updateA s.agent_loads w
                 (fun l => { l with current_tasks := l.current_tasks - 1 }) })

/-- Result of `EngineerAgent.api_work_on_task`: success, or the structured
HTTP errors 404 (unknown task), 403 (not the assignee), 400 (wrong
status). -/
inductive WorkRes
  | ok
  | notFound (task_id : String)
  | forbidden (task_id : String)
  | invalidState (task_id : String) (st : TaskStatus)
deriving DecidableEq, Repr

/-- `EngineerAgent.api_work_on_task` for the engineer named `name`. -/
def api_work_on_task (name : String) (s : SysState) (task_id : String) (now : Nat) :
    WorkRes × SysState :=
  match lookupA s.tasks_store task_id with
  | none => (.notFound task_id, s)
  | some task =>
    if task.assigned_to ≠ some name then (.forbidden task_id, s)
    else if task.status ≠ TaskStatus.in_progress then
      (.invalidState task_id task.status, s)
    else
      let task2 := { task with
        comments := task.comments ++
          ["[" ++ toString now ++ "] " ++ name ++ ": Working on implementation."],
        updated_at := now }
      (.ok, { s with tasks_store := setA s.tasks_store task_id task2 })

/-- Result of `EngineerAgent.api_complete_task`; the success response
carries the `available_testers` list computed from the registry. -/
inductive CompleteRes
  | ok (available_testers : List String)
  | notFound (task_id : String)
  | forbidden (task_id : String)
  | invalidState (task_id : String) (st : TaskStatus)
deriving DecidableEq, Repr

/-- `EngineerAgent.api_complete_task` for the engineer named `name`.  The
task becomes COMPLETED; the assignment is retained (NOT cleared). -/
def api_complete_task (name : String) (s : SysState) (task_id : String)
    (comment : Option String) (now : Nat) : CompleteRes × SysState :=
  match lookupA s.tasks_store task_id with
  | none => (.notFound task_id, s)
  | some task =>
    if task.assigned_to ≠ some name then (.forbidden task_id, s)
    else if task.status ≠ TaskStatus.in_progress then
      (.invalidState task_id task.status, s)
    else
      let task2 := { task with
        status := TaskStatus.completed, updated_at := now,
        comments := task.comments ++
          ["[" ++ toString now ++ "] " ++ name ++ ": " ++
            comment.getD "Task implementation completed."] }
      let s2 := { s with tasks_store := setA s.tasks_store task_id task2 }
      let avail := (s.agent_loads.filter
        (fun p => p.2.agent_type = "tester" ∧ 0 < p.2.available_capacity)).map Prod.fst
      (.ok avail, s2)

/-- Result of `TesterAgent.api_test_task`: success, 404 (unknown task),
400 (task not completed), 404 (no load record for the tester), or 400
(no available capacity). -/
inductive TestTaskRes
  | ok
  | notFound (task_id : String)
  | invalidState (task_id : String) (st : TaskStatus)
  | loadMissing (name : String)
  | overCapacity
deriving DecidableEq, Repr

/-- `TesterAgent.api_test_task` for the tester named `name`: claims a
COMPLETED task, reassigning it to the tester and incrementing the
tester's counter (the previous engineer's counter is NOT decremented). -/
def api_test_task (name : String) (s : SysState) (task_id : String) (now : Nat) :
    TestTaskRes × SysState :=
  match lookupA s.tasks_store task_id with
  | none => (.notFound task_id, s)
  | some task =>
    if task.status ≠ TaskStatus.completed then (.invalidState task_id task.status, s)
    else
      match lookupA s.agent_loads name with
      | none => (.loadMissing name, s)
      | some my_load =>
        if my_load.available_capacity ≤ 0 then (.overCapacity, s)
        else
          let task2 := { task with
            assigned_to := some name, status := TaskStatus.testing, updated_at := now,
            comments := task.comments ++
              ["[" ++ toString now ++ "] " ++ name ++ ": Starting testing process."] }
          let s2 := { s with tasks_store := setA s.tasks_store task_id task2 }
          let loads2 := updateA s2.agent_loads name
            (fun l => { l with current_tasks := l.current_tasks + 1 })
          (.ok, { s2 with agent_loads := loads2 })

/-- Result of `TesterAgent.api_submit_test_results`. -/
inductive SubmitRes
  | ok
  | notFound (task_id : String)
  | forbidden (task_id : String)
  | invalidState (task_id : String) (st : TaskStatus)
deriving DecidableEq, Repr

/-- `TesterAgent.api_submit_test_results` for the tester named `name`:
attaches the result record and a comment but leaves status at TESTING. -/
def api_submit_test_results (name : String) (s : SysState) (task_id : String)
    (passed : Bool) (notes : Option String) (now : Nat) : SubmitRes × SysState :=
  match lookupA s.tasks_store task_id with
  | none => (.notFound task_id, s)
  | some task =>
    if task.assigned_to ≠ some name then (.forbidden task_id, s)
    else if task.status ≠ TaskStatus.testing then
      (.invalidState task_id task.status, s)
    else
      let verdict := if passed then "passed" else "failed"
      let task2 := { task with
        test_results := some
          { tester := name, timestamp := toString now, result_status := verdict,
            notes := notes.getD ("Test " ++ verdict ++ " by " ++ name) },
        comments := task.comments ++
          ["[" ++ toString now ++ "] " ++ name ++ ": Testing completed - " ++
            (if passed then "PASSED" else "FAILED")],
        updated_at := now }
      (.ok, { s with tasks_store := setA s.tasks_store task_id task2 })

/-- Zero every counter: the first loop of `rebalance_workload`. -/
def zeroLoads (loads : List (String × AgentLoad)) : List (String × AgentLoad) :=
  loads.map (fun p => (p.1, { p.2 with current_tasks := 0 }))

/-- One iteration of the recount loop of `rebalance_workload`:
`if task.assigned_to and task.assigned_to in self.agent_loads:
self.agent_loads[task.assigned_to].current_tasks += 1`
(Python truthiness: `None` and the empty string are skipped). -/
def tallyTask (acc : List (String × AgentLoad)) (t : Task) : List (String × AgentLoad) :=
  match t.assigned_to with
  | none => acc
  | some a =>
    if a ≠ "" ∧ (lookupA acc a).isSome then
      updateA acc a (fun l => { l with current_tasks := l.current_tasks + 1 })
    else acc

/-- Step 1 of `rebalance_workload`: recompute every counter from scratch
by scanning the task store. -/
def recountLoads (tasks : List (String × Task)) (loads : List (String × AgentLoad)) :
    List (String × AgentLoad) :=
  tasks.foldl (fun acc p => tallyTask acc p.2) (zeroLoads loads)

/-- The number of tasks in the store whose `assigned_to` equals the given
worker identifier (the spec's authoritative count). -/
def countAssigned (tasks : List (String × Task)) (aid : String) : Int :=
  ((tasks.filter (fun p => p.2.assigned_to = some aid)).length : Int)

/-- The first task in store order that is assigned to `over_id`, is
IN_PROGRESS, and has no dependencies -- the task `rebalance_workload`
moves. -/
def findMovable (tasks : List (String × Task)) (over_id : String) :
    Option (String × Task) :=
  tasks.find? (fun p =>
    decide (p.2.assigned_to = some over_id ∧ p.2.status = TaskStatus.in_progress ∧
            p.2.dependencies = []))

/-- The inner task-scan of `rebalance_workload`: move the first movable
task of `over_id` to `under_id` (appending the audit comment, decrementing
the source counter and incrementing the destination counter), or do
nothing when no task qualifies. -/
def moveTaskStep (st : SysState) (over_id under_id : String) (now : Nat) : SysState :=
  match findMovable st.tasks_store over_id with
  | none => st
  | some (tid, task) =>
    let task2 := { task with
      assigned_to := some under_id,
      comments := task.comments ++
        ["[" ++ toString now ++ "] Task reassigned from " ++ over_id ++ " to " ++
          under_id ++ " for load balancing."] }
    { tasks_store := setA st.tasks_store tid task2,
      agent_loads :=
        updateA (updateA st.agent_loads over_id
            (fun l => { l with current_tasks := l.current_tasks - 1 }))
          under_id (fun l => { l with current_tasks := l.current_tasks + 1 }) }

/-- `self.agent_loads[over_id].load_percentage` as read inside the loop
(`over_id` is always a key of the registry, having come from the
partition over it). -/
def loadPctOf (loads : List (String × AgentLoad)) (aid : String) : ℚ :=
  match lookupA loads aid with
  | some l => l.load_percentage
  | none => 0

/-- The loop over `underloaded_engineers` for one overloaded engineer:
after each (attempted) move, `break` once the overloaded engineer's load
percentage has fallen to ≤ 80. -/
def processUnders (st : SysState) (over_id : String) (unders : List String)
    (now : Nat) : SysState :=
  match unders with
  | [] => st
  | under_id :: rest =>
    let st1 := moveTaskStep st over_id under_id now
    if loadPctOf st1.agent_loads over_id ≤ 80 then st1
    else processUnders st1 over_id rest now

/-- The outer loop of `rebalance_workload` over `overloaded_engineers`. -/
def processOvers (st : SysState) (overs unders : List String) (now : Nat) : SysState :=
  overs.foldl (fun acc over_id => processUnders acc over_id unders now) st

/-- `WorkflowCoordinator.rebalance_workload`: recount every counter from
the task store, partition engineers into overloaded (load% > 80) and
underloaded (load% < 50) by the recounted loads, then move tasks from
overloaded to underloaded engineers. -/
def rebalance_workload (s : SysState) (now : Nat) : SysState :=
  let loads1 := recountLoads s.tasks_store s.agent_loads
  let overs := (loads1.filter
    (fun p => p.2.agent_type = "engineer" ∧ 80 < p.2.load_percentage)).map Prod.fst
  let unders := (loads1.filter
    (fun p => p.2.agent_type = "engineer" ∧ p.2.load_percentage < 50)).map Prod.fst
  processOvers { s with agent_loads := loads1 } overs unders now

/-- The public operations of the §4.1 state-machine table. -/
inductive PmOp
  | create (newId title descr pr ty : String)
  | assign (task_id : String) (agent_id : Option String)
  | workOn (name task_id : String)
  | complete (name task_id : String) (comment : Option String)
  | testTask (name task_id : String)
  | submitResults (name task_id : String) (passed : Bool) (notes : Option String)
  | review (task_id : String) (approve : Bool) (comment : Option String)
deriving DecidableEq, Repr

/-- Apply one public operation to the shared state, discarding the
response. -/
def applyOp (s : SysState) (now : Nat) : PmOp → SysState
  | .create newId title descr pr ty => (api_create_task s title descr pr ty newId now).2
  | .assign tid agent => (api_assign_task s tid agent now).2
  | .workOn name tid => (api_work_on_task name s tid now).2
  | .complete name tid c => (api_complete_task name s tid c now).2
  | .testTask name tid => (api_test_task name s tid now).2
  | .submitResults name tid p n => (api_submit_test_results name s tid p n now).2
  | .review tid a c => (api_review_task s tid a c now).2

/-- The initial shared state built by `WorkflowCoordinator.__init__` with
the default capacities (manager 10, three engineers of capacity 5, two
testers of capacity 3), in dict insertion order. -/
def initState : SysState :=
  { tasks_store := [],
    agent_loads :=
      [("ProjectManager", ⟨"ProjectManager", "manager", 0, 10⟩),
       ("Engineer1", ⟨"Engineer1", "engineer", 0, 5⟩),
       ("Engineer2", ⟨"Engineer2", "engineer", 0, 5⟩),
       ("Engineer3", ⟨"Engineer3", "engineer", 0, 5⟩),
       ("Tester1", ⟨"Tester1", "tester", 0, 3⟩),
       ("Tester2", ⟨"Tester2", "tester", 0, 3⟩)] }

/-- An already-approved task still assigned to a (departed) engineer,
exercising C10: `assign_task` has no status guard. -/
def w10task : Task :=
  { id := "T1", title := "t", description := "d",
    status := .approved, priority := .medium, task_type := .feature,
    assigned_to := some "OldEngineer", created_at := 0, updated_at := 0,
    dependencies := [], comments := [], test_results := none }

/-- Witness state for C10. -/
def w10state : SysState :=
  { tasks_store := [("T1", w10task)],
    agent_loads := [("OldEngineer", ⟨"OldEngineer", "engineer", 1, 5⟩),
                    ("E1", ⟨"E1", "engineer", 2, 5⟩)] }

/-- One side of the §3 invariant: a task in IN_PROGRESS or TESTING has a
non-null `assigned_to`. -/
def assignedWhenActive (t : Task) : Prop :=
  (t.status = TaskStatus.in_progress ∨ t.status = TaskStatus.testing) →
    t.assigned_to ≠ none

/-- `assignedWhenActive` for every task of the store. -/
def storeAssignedInv (s : SysState) : Prop :=
  ∀ p ∈ s.tasks_store, assignedWhenActive p.2

/-- The full §3 invariant as claimed: `assigned_to` is non-null IFF the
status is IN_PROGRESS or TESTING. -/
def assignedIffActive (t : Task) : Prop :=
  t.assigned_to ≠ none ↔
    (t.status = TaskStatus.in_progress ∨ t.status = TaskStatus.testing)

/-- `assignedIffActive` for every task of the store. -/
def storeAssignedIff (s : SysState) : Prop :=
  ∀ p ∈ s.tasks_store, assignedIffActive p.2

instance (t : Task) : Decidable (assignedWhenActive t) := by
  unfold assignedWhenActive; infer_instance

instance (s : SysState) : Decidable (storeAssignedInv s) := by
  unfold storeAssignedInv; exact List.decidableBAll _ _

instance (t : Task) : Decidable (assignedIffActive t) := by
  unfold assignedIffActive; infer_instance

instance (s : SysState) : Decidable (storeAssignedIff s) := by
  unfold storeAssignedIff; exact List.decidableBAll _ _

/-- Reachable state for C1's counterexample: create TASK-1, assign it to
Engineer1, and let Engineer1 complete it (all operations of the §4.1
table applied to the startup state). -/
def c1state : SysState :=
  applyOp
    (applyOp
      (applyOp initState 0 (.create "TASK-1" "Fix bug" "desc" "high" "bug"))
      1 (.assign "TASK-1" (some "Engineer1")))
    2 (.complete "Engineer1" "TASK-1" none)

/-- A task in TESTING held by Tester1, for C2's failing input. -/
def c2task : Task :=
  { id := "TASK-1", title := "t", description := "d",
    status := .testing, priority := .medium, task_type := .feature,
    assigned_to := some "Tester1", created_at := 0, updated_at := 0,
    dependencies := [], comments := [], test_results := none }

/-- C2's failing input: TASK-1 is in TESTING, assigned to Tester1 whose
counter is 1. -/
def c2state : SysState :=
  { tasks_store := [("TASK-1", c2task)],
    agent_loads := [("Tester1", ⟨"Tester1", "tester", 1, 3⟩)] }

/-- A pending task for C3's counterexample. -/
def c3task : Task :=
  { id := "TASK-1", title := "t", description := "d",
    status := .pending, priority := .medium, task_type := .feature,
    assigned_to := none, created_at := 0, updated_at := 0,
    dependencies := [], comments := [], test_results := none }

/-- C3's counterexample input: one pending task and a registry that does
not know the worker identifier "Ghost". -/
def c3state : SysState :=
  { tasks_store := [("TASK-1", c3task)],
    agent_loads := [("Engineer1", ⟨"Engineer1", "engineer", 0, 5⟩)] }

/-- Reachable state for C5's counterexample: create TASK-1, assign it to
Engineer1, Engineer1 completes it, Tester1 claims it for testing. -/
def c5state : SysState :=
  applyOp
    (applyOp
      (applyOp
        (applyOp initState 0 (.create "TASK-1" "Fix bug" "desc" "high" "bug"))
        1 (.assign "TASK-1" (some "Engineer1")))
      2 (.complete "Engineer1" "TASK-1" none))
    3 (.testTask "Tester1" "TASK-1")

/-- An independent in-progress task assigned to `who`, used to build
C8's counterexample state. -/
def c8task (i : Nat) (who : String) : String × Task :=
  let t : Task :=
    { id := "T" ++ toString i, title := "t", description := "d",
      status := .in_progress, priority := .medium, task_type := .feature,
      assigned_to := some who, created_at := 0, updated_at := 0,
      dependencies := [], comments := [], test_results := none }
  ("T" ++ toString i, t)

/-- C8's counterexample state: engineer E1 (capacity 5) holds ten
independent in-progress tasks, engineer E2 (capacity 5) holds none. -/
def c8state : SysState :=
  { tasks_store := (List.range 10).map (fun i => c8task (i + 1) "E1"),
    agent_loads := [("E1", ⟨"E1", "engineer", 0, 5⟩),
                    ("E2", ⟨"E2", "engineer", 0, 5⟩)] }

/-- Reachable state for C7's counterexample: six tasks created and all
explicitly assigned to Engineer1, whose capacity is 5 -- assignment
performs no capacity check. -/
def c7state : SysState :=
  let step := fun (st : SysState) (i : Nat) =>
    applyOp
      (applyOp st i (.create ("TASK-" ++ toString i) "t" "d" "medium" "feature"))
      i (.assign ("TASK-" ++ toString i) (some "Engineer1"))
  (List.range 6).foldl step initState

/-! ### Association-list lemmas -/

theorem lookupA_setA_self {α : Type} (l : List (String × α)) (k : String) (v : α) :
    lookupA (setA l k v) k = some v := by
  induction l with
  | nil => simp [setA, lookupA]
  | cons p rest ih =>
    obtain ⟨k', w⟩ := p
    by_cases h : k' = k
    · simp [setA, h, lookupA]
    · simp [setA, h, lookupA, ih]

theorem lookupA_setA_ne {α : Type} (l : List (String × α)) (k k' : String) (v : α)
    (h : k' ≠ k) : lookupA (setA l k v) k' = lookupA l k' := by
  induction l with
  | nil =>
    simp only [setA, lookupA, if_neg (Ne.symm h)]
  | cons p rest ih =>
    obtain ⟨k0, w⟩ := p
    by_cases h0 : k0 = k
    · subst h0
      simp [setA, lookupA, Ne.symm h]
    · simp only [setA, if_neg h0, lookupA, ih]

theorem lookupA_updateA_self {α : Type} (l : List (String × α)) (k : String)
    (f : α → α) : lookupA (updateA l k f) k = (lookupA l k).map f := by
  induction l with
  | nil => simp [updateA, lookupA]
  | cons p rest ih =>
    obtain ⟨k0, w⟩ := p
    by_cases h0 : k0 = k
    · simp [updateA, h0, lookupA]
    · simp [updateA, h0, lookupA, ih]

theorem lookupA_updateA_ne {α : Type} (l : List (String × α)) (k k' : String)
    (f : α → α) (h : k' ≠ k) : lookupA (updateA l k f) k' = lookupA l k' := by
  induction l with
  | nil => simp [updateA]
  | cons p rest ih =>
    obtain ⟨k0, w⟩ := p
    by_cases h0 : k0 = k
    · subst h0
      simp [updateA, lookupA, Ne.symm h]
    · simp only [updateA, if_neg h0, lookupA, ih]

theorem mem_setA {α : Type} (l : List (String × α)) (k : String) (v : α)
    (p : String × α) (hp : p ∈ setA l k v) : p ∈ l ∨ p = (k, v) := by
  induction l with
  | nil => simp [setA] at hp; simp [hp]
  | cons q rest ih =>
    obtain ⟨k0, w⟩ := q
    by_cases h0 : k0 = k
    · simp only [setA, if_pos h0] at hp
      rcases List.mem_cons.mp hp with h | h
      · exact Or.inr h
      · exact Or.inl (List.mem_cons_of_mem _ h)
    · simp only [setA, if_neg h0] at hp
      rcases List.mem_cons.mp hp with h | h
      · exact Or.inl (h ▸ List.mem_cons_self _ _)
      · rcases ih h with h' | h'
        · exact Or.inl (List.mem_cons_of_mem _ h')
        · exact Or.inr h'

theorem lookupA_mem {α : Type} (l : List (String × α)) (k : String) (v : α)
    (h : lookupA l k = some v) : (k, v) ∈ l := by
  induction l with
  | nil => simp [lookupA] at h
  | cons q rest ih =>
    obtain ⟨k0, w⟩ := q
    by_cases h0 : k0 = k
    · subst h0
      simp [lookupA] at h
      rw [← h]
      exact List.mem_cons_self _ _
    · simp only [lookupA, if_neg h0] at h
      exact List.mem_cons_of_mem _ (ih h)

theorem lookupA_eq_of_nodup_mem {α : Type} (l : List (String × α)) (k : String)
    (v : α) (hnd : (l.map Prod.fst).Nodup) (hm : (k, v) ∈ l) :
    lookupA l k = some v := by
  induction l with
  | nil => simp at hm
  | cons q rest ih =>
    obtain ⟨k0, w⟩ := q
    simp only [List.map_cons, List.nodup_cons] at hnd
    rcases List.mem_cons.mp hm with h | h
    · rw [Prod.mk.injEq] at h
      simp [lookupA, h.1, h.2]
    · have hk : k0 ≠ k := by
        intro hk
        subst hk
        exact hnd.1 (List.mem_map_of_mem Prod.fst h)
      simp [lookupA, hk, ih hnd.2 h]

theorem keys_setA {α : Type} (l : List (String × α)) (k : String) (v : α)
    (h : (lookupA l k).isSome) :
    (setA l k v).map Prod.fst = l.map Prod.fst := by
  induction l with
  | nil => simp [lookupA] at h
  | cons q rest ih =>
    obtain ⟨k0, w⟩ := q
    by_cases h0 : k0 = k
    · simp [setA, h0]
    · simp only [lookupA, if_neg h0] at h
      simp [setA, h0, ih h]

theorem keys_updateA {α : Type} (l : List (String × α)) (k : String) (f : α → α) :
    (updateA l k f).map Prod.fst = l.map Prod.fst := by
  induction l with
  | nil => simp [updateA]
  | cons q rest ih =>
    obtain ⟨k0, w⟩ := q
    by_cases h0 : k0 = k
    · simp [updateA, h0]
    · simp [updateA, h0, ih]

theorem lookupA_zeroLoads (l : List (String × AgentLoad)) (k : String) :
    lookupA (zeroLoads l) k =
      (lookupA l k).map (fun x => { x with current_tasks := 0 }) := by
  induction l with
  | nil => simp [zeroLoads, lookupA]
  | cons q rest ih =>
    obtain ⟨k0, w⟩ := q
    by_cases h0 : k0 = k
    · simp [zeroLoads, lookupA, h0]
    · simp only [zeroLoads, List.map_cons, lookupA, if_neg h0] at *
      exact ih

/-! ### C10: assign_task has no status guard -/

/-- C10: `api_assign_task` does not require the task to be pending: for an
existing task in any status and an explicitly requested engineer known to
the registry, it sets the task to IN_PROGRESS assigned to that engineer,
increments exactly that engineer's counter, and decrements nobody
(in particular not a previously assigned worker). -/
theorem c10_assign_ignores_status (s : SysState) (tid a : String) (t : Task)
    (load : AgentLoad) (now : Nat)
    (ht : lookupA s.tasks_store tid = some t)
    (ha : a ≠ "")
    (hl : lookupA s.agent_loads a = some load)
    (heng : load.agent_type = "engineer") :
    (api_assign_task s tid (some a) now).1 = AssignRes.assigned a ∧
    lookupA (api_assign_task s tid (some a) now).2.tasks_store tid =
      some { t with assigned_to := some a, status := TaskStatus.in_progress,
                    updated_at := now } ∧
    lookupA (api_assign_task s tid (some a) now).2.agent_loads a =
      some { load with current_tasks := load.current_tasks + 1 } ∧
    ∀ w, w ≠ a → lookupA (api_assign_task s tid (some a) now).2.agent_loads w =
      lookupA s.agent_loads w := by
  have key : api_assign_task s tid (some a) now =
      (AssignRes.assigned a,
       { tasks_store := setA s.tasks_store tid
           { t with assigned_to := some a, status := TaskStatus.in_progress,
                    updated_at := now },
         agent_loads := setA s.agent_loads a
           { load with current_tasks := load.current_tasks + 1 } }) := by
    simp only [api_assign_task, ht, ha, if_false, hl]
  rw [key]
  refine ⟨rfl, lookupA_setA_self _ _ _, lookupA_setA_self _ _ _, ?_⟩
  intro w hw
  exact lookupA_setA_ne _ _ _ _ hw

/-- Witness for C10 at a concrete input: assigning the already-approved
task T1 (held by OldEngineer) to engineer E1 succeeds. -/
theorem c10_witness :
    (api_assign_task w10state "T1" (some "E1") 9).1 = AssignRes.assigned "E1" ∧
    lookupA (api_assign_task w10state "T1" (some "E1") 9).2.agent_loads "E1" =
      some ⟨"E1", "engineer", 3, 5⟩ := by
  have h := c10_assign_ignores_status w10state "T1" "E1" w10task
    ⟨"E1", "engineer", 2, 5⟩ 9 (by decide) (by decide) (by decide) (by decide)
  exact ⟨h.1, h.2.2.1⟩

/-! ### Closed counterexamples and code-bug exhibits

The rational arithmetic operations are `@[irreducible]` in the library;
the embedding evaluates them on concrete states, so they are made
semireducible locally for the whole development. -/

attribute [local semireducible] Rat.mul Rat.add Rat.sub Rat.inv

/-- C2 (code bug exhibit): reviewing the TESTING task TASK-1 (assigned to
Tester1, counter 1) with approve=true sets the status to APPROVED but
leaves Tester1's counter at 1 -- the decrement loop compares
`task.status == TESTING` after the status was already overwritten to
APPROVED, so it never fires (and `assigned_to` is not cleared either). -/
theorem c2_approve_leaves_tester_counter :
    (api_review_task c2state "TASK-1" true none 5).1 = ReviewRes.approvedOk ∧
    lookupA (api_review_task c2state "TASK-1" true none 5).2.agent_loads "Tester1" =
      some ⟨"Tester1", "tester", 1, 3⟩ ∧
    (lookupA (api_review_task c2state "TASK-1" true none 5).2.tasks_store
        "TASK-1").map Task.status = some TaskStatus.approved := by
  decide

/-- C1 (counterexample): after create / assign / complete -- three
operations of the §4.1 table applied to the startup state -- TASK-1 has
status COMPLETED while `assigned_to` is still Engineer1, so the claimed
iff-invariant fails on a reachable state. -/
theorem c1_counterexample : ¬ storeAssignedIff c1state := by
  decide

/-- C3 (counterexample): `api_assign_task` with the unknown worker
identifier "Ghost" does not produce a structured NotFound: it raises an
unhandled KeyError, and only after the task has already been mutated to
IN_PROGRESS / assigned_to Ghost in the shared store. -/
theorem c3_counterexample :
    (api_assign_task c3state "TASK-1" (some "Ghost") 1).1 =
      AssignRes.keyError "Ghost" ∧
    (lookupA (api_assign_task c3state "TASK-1" (some "Ghost") 1).2.tasks_store
        "TASK-1").map (fun t => (t.status, t.assigned_to)) =
      some (TaskStatus.in_progress, some "Ghost") := by
  decide

/-- C5 (counterexample): after create / assign / complete / test_task --
all operations of the §4.1 table applied to the startup state --
Engineer1's counter is still 1 although no task in the store is assigned
to Engineer1 (test_task reassigned the task to Tester1 without
decrementing Engineer1), so the count invariant does not hold at all
times. -/
theorem c5_counterexample :
    (lookupA c5state.agent_loads "Engineer1").map AgentLoad.current_tasks =
      some 1 ∧
    countAssigned c5state.tasks_store "Engineer1" = 0 := by
  decide

/-- C7 (counterexample): after six create/assign pairs all targeting
Engineer1 (capacity 5) from the startup state, Engineer1's load record is
6/5, whose load_percentage is 120, outside [0,100] although
max_capacity = 5 > 0 -- assignment never checks capacity. -/
theorem c7_counterexample :
    lookupA c7state.agent_loads "Engineer1" =
      some ⟨"Engineer1", "engineer", 6, 5⟩ ∧
    AgentLoad.load_percentage ⟨"Engineer1", "engineer", 6, 5⟩ = 120 ∧
    ¬ (AgentLoad.load_percentage ⟨"Engineer1", "engineer", 6, 5⟩ ≤ 100) := by
  decide

/-- C8 (counterexample): from a state where E1 (capacity 5) holds ten
independent in-progress tasks and E2 none, the first rebalance pass moves
only T1 (leaving E1 at 180% > 80%), and the second pass moves T2 -- so
running the rebalancer twice in a row does reassign tasks on the second
run. -/
theorem c8_counterexample :
    (lookupA (rebalance_workload c8state 0).tasks_store "T2").map
        Task.assigned_to = some (some "E1") ∧
    (lookupA (rebalance_workload (rebalance_workload c8state 0) 1).tasks_store
        "T2").map Task.assigned_to = some (some "E2") := by
  decide

/-! ### C3: error handling -/

/-- C3 (amended): task-existence and guard failures in the cited worker
operations return structured errors (NotFound / Forbidden / InvalidState)
and leave the state unchanged; but `api_assign_task` does not validate the
worker identifier -- called with an unknown agent_id it first mutates the
task to IN_PROGRESS / assigned, then fails with an unhandled KeyError
rather than a structured NotFound (the load registry itself is left
unchanged). -/
theorem c3_structured_errors (s : SysState) (tid tidMiss a name : String)
    (t : Task) (now : Nat)
    (ht : lookupA s.tasks_store tid = some t)
    (hmiss : lookupA s.tasks_store tidMiss = none)
    (ha : a ≠ "")
    (hag : lookupA s.agent_loads a = none) :
    (api_assign_task s tidMiss (some a) now = (AssignRes.notFound tidMiss, s)) ∧
    (api_work_on_task name s tidMiss now = (WorkRes.notFound tidMiss, s)) ∧
    (t.assigned_to ≠ some name →
      api_work_on_task name s tid now = (WorkRes.forbidden tid, s)) ∧
    (t.assigned_to = some name → t.status ≠ TaskStatus.in_progress →
      api_work_on_task name s tid now = (WorkRes.invalidState tid t.status, s)) ∧
    ((api_assign_task s tid (some a) now).1 = AssignRes.keyError a) ∧
    ((api_assign_task s tid (some a) now).2.agent_loads = s.agent_loads) ∧
    (lookupA (api_assign_task s tid (some a) now).2.tasks_store tid =
      some { t with assigned_to := some a, status := TaskStatus.in_progress,
                    updated_at := now }) := by
  have hkey : api_assign_task s tid (some a) now =
      (AssignRes.keyError a,
       { tasks_store := setA s.tasks_store tid
           { t with assigned_to := some a, status := TaskStatus.in_progress,
                    updated_at := now },
         agent_loads := s.agent_loads }) := by
    simp only [api_assign_task, ht, ha, if_false, hag]
  refine ⟨?_, ?_, ?_, ?_, ?_, ?_, ?_⟩
  · simp only [api_assign_task, hmiss]
  · simp only [api_work_on_task, hmiss]
  · intro hna
    simp only [api_work_on_task, ht, if_pos hna]
  · intro hyes hst
    simp only [api_work_on_task, ht, hyes, if_pos hst]
    simp
  · rw [hkey]
  · rw [hkey]
  · rw [hkey]
    exact lookupA_setA_self _ _ _

/-- Witness for C3 at concrete inputs: an unknown task id yields a
structured NotFound with the state untouched, and an unknown worker id
leaves the load registry unchanged (while the KeyError escapes). -/
theorem c3_witness :
    api_assign_task c3state "NOPE" (some "Ghost") 1 =
      (AssignRes.notFound "NOPE", c3state) ∧
    (api_assign_task c3state "TASK-1" (some "Ghost") 1).2.agent_loads =
      c3state.agent_loads := by
  have h := c3_structured_errors c3state "TASK-1" "NOPE" "Ghost" "Engineer1"
    c3task 1 (by decide) (by decide) (by decide) (by decide)
  exact ⟨h.1, h.2.2.2.2.2.1⟩

/-! ### C7: load percentage bounds -/

/-- C7 (amended): `load_percentage` is 0 when max_capacity is 0, and lies
in [0,100] whenever 0 ≤ current_tasks ≤ max_capacity with positive
capacity; the claimed unconditional [0,100] bound for every reachable
record fails because assignment performs no capacity check (see the
counterexample). -/
theorem c7_load_percentage_bounds (l : AgentLoad) :
    (l.max_capacity = 0 → l.load_percentage = 0) ∧
    (0 < l.max_capacity → 0 ≤ l.current_tasks →
      l.current_tasks ≤ l.max_capacity →
      0 ≤ l.load_percentage ∧ l.load_percentage ≤ 100) := by
  constructor
  · intro h
    simp [AgentLoad.load_percentage, h]
  · intro hm hc hcm
    have hm0 : l.max_capacity ≠ 0 := by omega
    have hmq : (0:ℚ) < (l.max_capacity : ℚ) := by exact_mod_cast hm
    have hcq : (0:ℚ) ≤ (l.current_tasks : ℚ) := by exact_mod_cast hc
    have hcmq : (l.current_tasks : ℚ) ≤ (l.max_capacity : ℚ) := by
      exact_mod_cast hcm
    unfold AgentLoad.load_percentage
    rw [if_neg hm0]
    constructor
    · exact mul_nonneg (div_nonneg hcq (le_of_lt hmq)) (by norm_num)
    · have h1 : (l.current_tasks : ℚ) / (l.max_capacity : ℚ) ≤ 1 :=
        (div_le_one hmq).mpr hcmq
      calc (l.current_tasks : ℚ) / (l.max_capacity : ℚ) * 100
          ≤ 1 * 100 := mul_le_mul_of_nonneg_right h1 (by norm_num)
        _ = 100 := by norm_num

/-- Witness for C7's amended bounds at a concrete 3/5 engineer record. -/
theorem c7_witness :
    0 ≤ AgentLoad.load_percentage ⟨"E", "engineer", 3, 5⟩ ∧
    AgentLoad.load_percentage ⟨"E", "engineer", 3, 5⟩ ≤ 100 :=
  (c7_load_percentage_bounds ⟨"E", "engineer", 3, 5⟩).2
    (by decide) (by decide) (by decide)

/-! ### C4: rejection clears the assignment and decrements one counter -/

/-- C4: reviewing a COMPLETED or TESTING task with approve=false sets its
status to PENDING, clears `assigned_to`, decrements exactly the counter of
the worker assigned at the moment of rejection (when there is one, and it
is known to the registry), and leaves every other worker's record
unchanged; with no assignee the registry is untouched. -/
theorem c4_reject_behavior (s : SysState) (tid : String) (t : Task)
    (comment : Option String) (now : Nat)
    (ht : lookupA s.tasks_store tid = some t)
    (hst : t.status = TaskStatus.completed ∨ t.status = TaskStatus.testing)
    (hreg : ∀ w, t.assigned_to = some w → (lookupA s.agent_loads w).isSome) :
    (∃ t2, lookupA (api_review_task s tid false comment now).2.tasks_store tid =
        some t2 ∧ t2.status = TaskStatus.pending ∧ t2.assigned_to = none) ∧
    (∀ w load, t.assigned_to = some w → lookupA s.agent_loads w = some load →
        lookupA (api_review_task s tid false comment now).2.agent_loads w =
          some { load with current_tasks := load.current_tasks - 1 }) ∧
    (∀ w, t.assigned_to ≠ some w →
        lookupA (api_review_task s tid false comment now).2.agent_loads w =
          lookupA s.agent_loads w) ∧
    (t.assigned_to = none →
        (api_review_task s tid false comment now).2.agent_loads = s.agent_loads) := by
  have hcond : ¬¬(t.status = TaskStatus.completed ∨ t.status = TaskStatus.testing) :=
    not_not_intro hst
  rcases hass : t.assigned_to with _ | w
  · -- no assignee at the moment of rejection
    cases comment with
    | none =>
      simp only [api_review_task, ht, if_neg hcond, hass,
        if_neg Bool.false_ne_true]
      refine ⟨⟨_, lookupA_setA_self _ _ _, rfl, rfl⟩, ?_, ?_, ?_⟩
      · intro w' load' hw _
        cases hw
      · intro w' _
        trivial
      · intro _
        trivial
    | some c =>
      simp only [api_review_task, ht, if_neg hcond, hass,
        if_neg Bool.false_ne_true]
      refine ⟨⟨_, lookupA_setA_self _ _ _, rfl, rfl⟩, ?_, ?_, ?_⟩
      · intro w' load' hw _
        cases hw
      · intro w' _
        trivial
      · intro _
        trivial
  · -- assigned to w at the moment of rejection
    obtain ⟨load0, hload0⟩ := Option.isSome_iff_exists.mp (hreg w hass)
    cases comment with
    | none =>
      simp only [api_review_task, ht, if_neg hcond, hass, hload0,
        if_neg Bool.false_ne_true]
      refine ⟨⟨_, lookupA_setA_self _ _ _, rfl, rfl⟩, ?_, ?_, ?_⟩
      · intro w' load' hw hl
        cases hw
        rw [hload0] at hl
        cases hl
        rw [lookupA_updateA_self, hload0]
        rfl
      · intro w' hw
        have hne : w' ≠ w := by
          intro h
          exact hw (congrArg some h.symm)
        exact lookupA_updateA_ne _ _ _ _ hne
      · intro h
        cases h
    | some c =>
      simp only [api_review_task, ht, if_neg hcond, hass, hload0,
        if_neg Bool.false_ne_true]
      refine ⟨⟨_, lookupA_setA_self _ _ _, rfl, rfl⟩, ?_, ?_, ?_⟩
      · intro w' load' hw hl
        cases hw
        rw [hload0] at hl
        cases hl
        rw [lookupA_updateA_self, hload0]
        rfl
      · intro w' hw
        have hne : w' ≠ w := by
          intro h
          exact hw (congrArg some h.symm)
        exact lookupA_updateA_ne _ _ _ _ hne
      · intro h
        cases h

/-- Witness for C4 at a concrete input: rejecting the TESTING task held by
Tester1 (counter 1) sets it to PENDING unassigned and leaves Tester1's
record at counter 0. -/
theorem c4_witness :
    lookupA (api_review_task c2state "TASK-1" false none 6).2.agent_loads
      "Tester1" = some ⟨"Tester1", "tester", 0, 3⟩ := by
  have h := c4_reject_behavior c2state "TASK-1" c2task none 6
    (by decide) (by decide) (by intro w hw; cases hw; decide)
  exact h.2.1 "Tester1" ⟨"Tester1", "tester", 1, 3⟩ (by decide) (by decide)

/-! ### C1: one-directional assignment invariant -/

/-- Every public operation either leaves the task store unchanged or
stores a single task that satisfies `assignedWhenActive` (active statuses
are only ever written together with a non-null assignee). -/
theorem applyOp_store_shape (s : SysState) (now : Nat) (op : PmOp) :
    (applyOp s now op).tasks_store = s.tasks_store ∨
    ∃ k v, assignedWhenActive v ∧
      (applyOp s now op).tasks_store = setA s.tasks_store k v := by
  cases op with
  | create newId title descr pr ty =>
    right
    exact ⟨newId, _, by simp [assignedWhenActive], rfl⟩
  | assign tid agent =>
    simp only [applyOp, api_assign_task]
    split
    · left; rfl
    · split
      · left; rfl
      · split
        · right
          exact ⟨tid, _, by simp [assignedWhenActive], rfl⟩
        · right
          exact ⟨tid, _, by simp [assignedWhenActive], rfl⟩
  | workOn name tid =>
    simp only [applyOp, api_work_on_task]
    split
    · left; rfl
    · split
      · left; rfl
      · split
        · left; rfl
        · rename_i task hna _
          right
          refine ⟨tid, _, ?_, rfl⟩
          rw [not_not] at hna
          simp [assignedWhenActive, hna]
  | complete name tid c =>
    simp only [applyOp, api_complete_task]
    split
    · left; rfl
    · split
      · left; rfl
      · split
        · left; rfl
        · right
          exact ⟨tid, _, by simp [assignedWhenActive], rfl⟩
  | testTask name tid =>
    simp only [applyOp, api_test_task]
    split
    · left; rfl
    · split
      · left; rfl
      · split
        · left; rfl
        · split
          · left; rfl
          · right
            exact ⟨tid, _, by simp [assignedWhenActive], rfl⟩
  | submitResults name tid passed notes =>
    simp only [applyOp, api_submit_test_results]
    split
    · left; rfl
    · split
      · left; rfl
      · split
        · left; rfl
        · rename_i task hna _
          right
          refine ⟨tid, _, ?_, rfl⟩
          rw [not_not] at hna
          simp [assignedWhenActive, hna]
  | review tid approve c =>
    simp only [applyOp, api_review_task]
    split
    · left; rfl
    · split
      · left; rfl
      · cases approve <;> cases c <;>
          simp only [if_neg Bool.false_ne_true, if_pos (rfl : true = true)]
        all_goals try split
        all_goals try split
        all_goals try split
        all_goals (right; exact ⟨tid, _, by simp [assignedWhenActive], rfl⟩)

/-- C1 (amended): one direction of the §3 invariant is preserved by every
operation of the §4.1 table: a task whose status is IN_PROGRESS or
TESTING always has a non-null `assigned_to`.  The claimed converse fails
(see the counterexample): complete_task retains the assignment with
status COMPLETED, and approval never clears it. -/
theorem c1_invariant_preserved (s : SysState) (now : Nat) (op : PmOp)
    (h : storeAssignedInv s) : storeAssignedInv (applyOp s now op) := by
  rcases applyOp_store_shape s now op with hs | ⟨k, v, hv, hs⟩
  · intro p hp
    rw [hs] at hp
    exact h p hp
  · intro p hp
    rw [hs] at hp
    rcases mem_setA _ _ _ p hp with h1 | h1
    · exact h p h1
    · rw [h1]
      exact hv

/-- Witness for C1's amended invariant: it holds after creating a task in
the startup state. -/
theorem c1_witness :
    storeAssignedInv
      (applyOp initState 0 (PmOp.create "TASK-1" "t" "d" "high" "bug")) :=
  c1_invariant_preserved initState 0 _ (by decide)

/-! ### C5: the recount step restores the counters -/

theorem countAssigned_cons (k : String) (t : Task) (rest : List (String × Task))
    (aid : String) :
    countAssigned ((k, t) :: rest) aid =
      (if t.assigned_to = some aid then 1 else 0) + countAssigned rest aid := by
  by_cases h : t.assigned_to = some aid
  · simp [countAssigned, List.filter_cons, h]
    ring
  · simp [countAssigned, List.filter_cons, h]

theorem lookupA_tally_fold (tasks : List (String × Task))
    (acc : List (String × AgentLoad)) (aid : String) (hne : aid ≠ "") :
    lookupA (tasks.foldl (fun a p => tallyTask a p.2) acc) aid =
      (lookupA acc aid).map
        (fun l => { l with current_tasks := l.current_tasks + countAssigned tasks aid }) := by
  induction tasks generalizing acc with
  | nil =>
    simp only [List.foldl_nil, countAssigned, List.filter_nil, List.length_nil]
    cases h : lookupA acc aid with
    | none => simp
    | some l0 => cases l0; simp
  | cons p rest ih =>
    obtain ⟨k, t⟩ := p
    rw [List.foldl_cons, ih, countAssigned_cons]
    cases hat : t.assigned_to with
    | none =>
      simp [tallyTask, hat]
    | some a =>
      by_cases ha : a = aid
      · subst ha
        cases hacc : lookupA acc a with
        | none =>
          simp [tallyTask, hat, hacc, hne]
        | some l0 =>
          simp only [tallyTask, hat, hacc, hne, Option.isSome_some, ne_eq,
            not_false_iff, true_and, if_pos, and_self, if_true, Option.map_some]
          rw [lookupA_updateA_self, hacc]
          cases l0
          simp
          ring
      · have hkeep : lookupA (tallyTask acc t) aid = lookupA acc aid := by
          simp only [tallyTask, hat]
          split
          · exact lookupA_updateA_ne _ _ _ _ (fun hh => ha hh.symm)
          · rfl
        rw [hkeep]
        have hno : ¬ (some a = some aid) := by
          intro hh
          rw [Option.some.injEq] at hh
          exact ha hh
        rw [if_neg hno]
        simp

/-- C5 (amended): immediately after the recount step (step 1) of
`rebalance_workload`, every worker's `current_tasks` equals the number of
tasks in the store whose `assigned_to` equals that worker's identifier.
The claimed "at all times" version fails between rebalances (see the
counterexample: test_task leaves the previous engineer's counter stale). -/
theorem c5_recount_restores_counts (tasks : List (String × Task))
    (loads : List (String × AgentLoad)) (aid : String) (load : AgentLoad)
    (hne : aid ≠ "")
    (h : lookupA (recountLoads tasks loads) aid = some load) :
    load.current_tasks = countAssigned tasks aid := by
  unfold recountLoads at h
  rw [lookupA_tally_fold _ _ _ hne, lookupA_zeroLoads] at h
  cases hl : lookupA loads aid with
  | none =>
    rw [hl] at h
    simp at h
  | some l0 =>
    rw [hl] at h
    have h2 := Option.some.inj h
    rw [← h2]
    simp

/-- Witness for C5's amended recount property on a concrete store: the
recount of c2state's registry yields counter 1 for Tester1, the number of
tasks assigned to Tester1. -/
theorem c5_witness :
    (⟨"Tester1", "tester", 1, 3⟩ : AgentLoad).current_tasks =
      countAssigned c2state.tasks_store "Tester1" :=
  c5_recount_restores_counts c2state.tasks_store c2state.agent_loads
    "Tester1" ⟨"Tester1", "tester", 1, 3⟩ (by decide) (by decide)

/-! ### C8: rebalance is a no-op when nobody is overloaded -/

/-- C8 (amended): when, after the authoritative recount, no engineer's
load percentage exceeds 80, a rebalance pass performs no reassignment at
all (the task store is returned unchanged).  The claimed consequence that
a second consecutive run never reassigns fails in general (see the
counterexample), because one pass can leave an engineer above 80% while
underloaded engineers remain. -/
theorem c8_rebalance_noop_when_balanced (s : SysState) (now : Nat)
    (h : ∀ p ∈ recountLoads s.tasks_store s.agent_loads,
        p.2.agent_type = "engineer" → p.2.load_percentage ≤ 80) :
    (rebalance_workload s now).tasks_store = s.tasks_store := by
  have hov : (recountLoads s.tasks_store s.agent_loads).filter
      (fun p => p.2.agent_type = "engineer" ∧ 80 < p.2.load_percentage) = [] := by
    rw [List.filter_eq_nil_iff]
    intro p hp
    simp only [decide_eq_true_eq, not_and, not_lt]
    exact h p hp
  simp only [rebalance_workload, hov, List.map_nil]
  simp [processOvers]

/-- Witness for C8's amended no-op property: rebalancing the startup
state (no tasks, all loads zero) leaves the task store unchanged. -/
theorem c8_witness :
    (rebalance_workload initState 0).tasks_store = initState.tasks_store :=
  c8_rebalance_noop_when_balanced initState 0 (by decide)

/-! ### C9: the rebalancer only moves independent in-progress tasks -/

theorem findMovable_mem_spec (tasks : List (String × Task)) (over : String)
    (tid : String) (task : Task)
    (h : findMovable tasks over = some (tid, task)) :
    (tid, task) ∈ tasks ∧ task.assigned_to = some over ∧
      task.status = TaskStatus.in_progress ∧ task.dependencies = [] := by
  unfold findMovable at h
  have h1 := List.mem_of_find?_eq_some h
  have h2 := List.find?_some h
  simp only [decide_eq_true_eq] at h2
  exact ⟨h1, h2.1, h2.2.1, h2.2.2⟩

theorem moveTaskStep_protected (st : SysState) (o u : String) (now : Nat)
    (tid : String) (t : Task)
    (hnd : (st.tasks_store.map Prod.fst).Nodup)
    (ht : lookupA st.tasks_store tid = some t)
    (hp : t.dependencies ≠ [] ∨ t.status ≠ TaskStatus.in_progress) :
    lookupA (moveTaskStep st o u now).tasks_store tid = some t ∧
    (moveTaskStep st o u now).tasks_store.map Prod.fst =
      st.tasks_store.map Prod.fst := by
  unfold moveTaskStep
  cases hf : findMovable st.tasks_store o with
  | none => exact ⟨ht, rfl⟩
  | some pr =>
    obtain ⟨tid2, task2⟩ := pr
    obtain ⟨hmem, hassigned, hstat, hdeps⟩ := findMovable_mem_spec _ _ _ _ hf
    have hne : tid ≠ tid2 := by
      intro he
      subst he
      have hlk := lookupA_eq_of_nodup_mem _ _ _ hnd hmem
      rw [ht] at hlk
      have ht2 := Option.some.inj hlk
      rcases hp with hdep | hstp
      · rw [← ht2] at hdeps
        exact hdep hdeps
      · rw [← ht2] at hstat
        exact hstp hstat
    constructor
    · rw [lookupA_setA_ne _ _ _ _ hne]
      exact ht
    · apply keys_setA
      rw [lookupA_eq_of_nodup_mem _ _ _ hnd hmem]
      rfl

theorem processUnders_protected (o : String) (now : Nat) (tid : String)
    (t : Task) (hp : t.dependencies ≠ [] ∨ t.status ≠ TaskStatus.in_progress) :
    ∀ (unders : List String) (st : SysState),
      (st.tasks_store.map Prod.fst).Nodup →
      lookupA st.tasks_store tid = some t →
      lookupA (processUnders st o unders now).tasks_store tid = some t ∧
      (processUnders st o unders now).tasks_store.map Prod.fst =
        st.tasks_store.map Prod.fst := by
  intro unders
  induction unders with
  | nil =>
    intro st hnd ht
    exact ⟨ht, rfl⟩
  | cons u rest ih =>
    intro st hnd ht
    obtain ⟨h1, h2⟩ := moveTaskStep_protected st o u now tid t hnd ht hp
    have hnd1 : ((moveTaskStep st o u now).tasks_store.map Prod.fst).Nodup := by
      rw [h2]
      exact hnd
    simp only [processUnders]
    split
    · exact ⟨h1, h2⟩
    · obtain ⟨g1, g2⟩ := ih (moveTaskStep st o u now) hnd1 h1
      exact ⟨g1, g2.trans h2⟩

theorem processOvers_protected (unders : List String) (now : Nat) (tid : String)
    (t : Task) (hp : t.dependencies ≠ [] ∨ t.status ≠ TaskStatus.in_progress) :
    ∀ (overs : List String) (st : SysState),
      (st.tasks_store.map Prod.fst).Nodup →
      lookupA st.tasks_store tid = some t →
      lookupA (processOvers st overs unders now).tasks_store tid = some t ∧
      (processOvers st overs unders now).tasks_store.map Prod.fst =
        st.tasks_store.map Prod.fst := by
  intro overs
  induction overs with
  | nil =>
    intro st hnd ht
    exact ⟨ht, rfl⟩
  | cons o rest ih =>
    intro st hnd ht
    obtain ⟨h1, h2⟩ := processUnders_protected o now tid t hp unders st hnd ht
    have hnd1 : ((processUnders st o unders now).tasks_store.map Prod.fst).Nodup := by
      rw [h2]
      exact hnd
    simp only [processOvers, List.foldl_cons]
    obtain ⟨g1, g2⟩ := ih (processUnders st o unders now) hnd1 h1
    simp only [processOvers] at g1 g2
    exact ⟨g1, g2.trans h2⟩

/-- C9: a rebalance pass never changes the `assigned_to` of a task whose
dependency set is non-empty or whose status is not IN_PROGRESS -- the
move condition requires IN_PROGRESS with an empty dependency list, so
every other task's entry is left untouched. -/
theorem c9_rebalancer_preserves_protected (s : SysState) (now : Nat)
    (tid : String) (t : Task)
    (hnd : (s.tasks_store.map Prod.fst).Nodup)
    (ht : lookupA s.tasks_store tid = some t)
    (hp : t.dependencies ≠ [] ∨ t.status ≠ TaskStatus.in_progress) :
    (lookupA (rebalance_workload s now).tasks_store tid).map Task.assigned_to =
      some t.assigned_to := by
  simp only [rebalance_workload]
  obtain ⟨h1, _⟩ := processOvers_protected
    (((recountLoads s.tasks_store s.agent_loads).filter
        (fun p => p.2.agent_type = "engineer" ∧ p.2.load_percentage < 50)).map
      Prod.fst)
    now tid t hp
    (((recountLoads s.tasks_store s.agent_loads).filter
        (fun p => p.2.agent_type = "engineer" ∧ 80 < p.2.load_percentage)).map
      Prod.fst)
    { s with agent_loads := recountLoads s.tasks_store s.agent_loads }
    hnd ht
  rw [h1]
  rfl

/-- Witness for C9 at a concrete input: rebalancing w10state leaves the
approved task T1 assigned to OldEngineer. -/
theorem c9_witness :
    (lookupA (rebalance_workload w10state 5).tasks_store "T1").map
      Task.assigned_to = some (some "OldEngineer") :=
  c9_rebalancer_preserves_protected w10state 5 "T1" w10task
    (by decide) (by decide) (Or.inr (by decide))

/-! ### C6: auto-pick selects the first least-loaded engineer -/

theorem foldl_minStep_le (xs : List (String × AgentLoad)) :
    ∀ x : String × AgentLoad,
      (xs.foldl minStep x).2.load_percentage ≤ x.2.load_percentage ∧
      ∀ p ∈ xs, (xs.foldl minStep x).2.load_percentage ≤ p.2.load_percentage := by
  induction xs with
  | nil =>
    intro x
    exact ⟨le_refl _, by simp⟩
  | cons y ys ih =>
    intro x
    rw [List.foldl_cons]
    obtain ⟨ha, hb⟩ := ih (minStep x y)
    have hxy : (minStep x y).2.load_percentage ≤ x.2.load_percentage ∧
        (minStep x y).2.load_percentage ≤ y.2.load_percentage := by
      unfold minStep
      split
      · rename_i hlt
        exact ⟨le_of_lt hlt, le_refl _⟩
      · rename_i hlt
        exact ⟨le_refl _, not_lt.mp hlt⟩
    refine ⟨le_trans ha hxy.1, ?_⟩
    intro p hp
    rcases List.mem_cons.mp hp with rfl | hp2
    · exact le_trans ha hxy.2
    · exact hb p hp2

theorem foldl_minStep_first (xs : List (String × AgentLoad)) :
    ∀ x : String × AgentLoad,
      ∃ l1 l2, x :: xs = l1 ++ (xs.foldl minStep x) :: l2 ∧
        (∀ p ∈ l1, (xs.foldl minStep x).2.load_percentage < p.2.load_percentage) ∧
        (∀ p ∈ l2, (xs.foldl minStep x).2.load_percentage ≤ p.2.load_percentage) := by
  induction xs with
  | nil =>
    intro x
    exact ⟨[], [], rfl, by simp, by simp⟩
  | cons y ys ih =>
    intro x
    rw [List.foldl_cons]
    by_cases hlt : y.2.load_percentage < x.2.load_percentage
    · have hstep : minStep x y = y := if_pos hlt
      rw [hstep]
      obtain ⟨l1, l2, heq, h1, h2⟩ := ih y
      refine ⟨x :: l1, l2, ?_, ?_, h2⟩
      · rw [List.cons_append, ← heq]
      · intro p hp
        rcases List.mem_cons.mp hp with rfl | hp2
        · exact lt_of_le_of_lt (foldl_minStep_le ys y).1 hlt
        · exact h1 p hp2
    · have hstep : minStep x y = x := if_neg hlt
      rw [hstep]
      obtain ⟨l1, l2, heq, h1, h2⟩ := ih x
      have hxy : x.2.load_percentage ≤ y.2.load_percentage := not_lt.mp hlt
      cases l1 with
      | nil =>
        simp only [List.nil_append, List.cons.injEq] at heq
        obtain ⟨hx, hl2⟩ := heq
        refine ⟨[], y :: l2, ?_, by simp, ?_⟩
        · subst hl2
          rw [List.nil_append, ← hx]
        · intro p hp
          rcases List.mem_cons.mp hp with rfl | hp2
          · rw [← hx]
            exact hxy
          · exact h2 p hp2
      | cons a l1' =>
        rw [List.cons_append, List.cons.injEq] at heq
        obtain ⟨hxa, hys⟩ := heq
        refine ⟨x :: y :: l1', l2, ?_, ?_, h2⟩
        · rw [List.cons_append, List.cons_append, ← hys]
        · intro p hp
          have hxmem : x ∈ a :: l1' := by
            rw [← hxa]
            exact List.mem_cons_self _ _
          rcases List.mem_cons.mp hp with rfl | hp2
          · exact h1 p hxmem
          · rcases List.mem_cons.mp hp2 with rfl | hp3
            · exact lt_of_lt_of_le (h1 x hxmem) hxy
            · exact h1 p (List.mem_cons_of_mem _ hp3)

theorem firstMin_unique :
    ∀ (a1 l a2 b1 b2 : List (String × AgentLoad)) (r q : String × AgentLoad),
      l = a1 ++ r :: a2 →
      (∀ p ∈ a1, r.2.load_percentage < p.2.load_percentage) →
      (∀ p ∈ a2, r.2.load_percentage ≤ p.2.load_percentage) →
      l = b1 ++ q :: b2 →
      (∀ p ∈ b1, q.2.load_percentage < p.2.load_percentage) →
      (∀ p ∈ b2, q.2.load_percentage ≤ p.2.load_percentage) →
      r = q := by
  intro a1
  induction a1 with
  | nil =>
    intro l a2 b1 b2 r q hA hA1 hA2 hB hB1 hB2
    subst hA
    cases b1 with
    | nil =>
      simp only [List.nil_append, List.cons.injEq] at hB
      exact hB.1
    | cons b b1' =>
      simp only [List.nil_append, List.cons_append, List.cons.injEq] at hB
      obtain ⟨hrb, ha2⟩ := hB
      have hq : q ∈ a2 := by
        rw [ha2]
        exact List.mem_append_right _ (List.mem_cons_self _ _)
      have hrq := hA2 q hq
      have hrmem : r ∈ b :: b1' := by
        rw [← hrb]
        exact List.mem_cons_self _ _
      have hqr := hB1 r hrmem
      exact absurd hrq (not_le.mpr hqr)
  | cons a a1' ih =>
    intro l a2 b1 b2 r q hA hA1 hA2 hB hB1 hB2
    subst hA
    cases b1 with
    | nil =>
      simp only [List.nil_append, List.cons_append, List.cons.injEq] at hB
      obtain ⟨haq, hb2⟩ := hB
      have hr : r ∈ b2 := by
        rw [← hb2]
        exact List.mem_append_right _ (List.mem_cons_self _ _)
      have hqr := hB2 r hr
      have hqmem : q ∈ a :: a1' := by
        rw [← haq]
        exact List.mem_cons_self _ _
      have hrq := hA1 q hqmem
      exact absurd hqr (not_le.mpr hrq)
    | cons b b1' =>
      rw [List.cons_append, List.cons_append, List.cons.injEq] at hB
      obtain ⟨hab, htail⟩ := hB
      exact ih (a1' ++ r :: a2) a2 b1' b2 r q rfl
        (fun p hp => hA1 p (List.mem_cons_of_mem _ hp)) hA2 htail
        (fun p hp => hB1 p (List.mem_cons_of_mem _ hp)) hB2

/-- C6: with `agent_id` omitted, `api_assign_task` reports "No suitable
engineers available." without any mutation when the registry holds no
engineers; otherwise it assigns the task to the engineer that is the
first minimum of `load_percentage` in registry iteration order (the
element strictly smaller than everything before it and no larger than
everything after it), and increments exactly that engineer's counter. -/
theorem c6_autopick_first_minimum (s : SysState) (tid : String) (t : Task)
    (now : Nat)
    (hnd : (s.agent_loads.map Prod.fst).Nodup)
    (ht : lookupA s.tasks_store tid = some t) :
    (engineersOf s.agent_loads = [] →
      api_assign_task s tid none now = (AssignRes.noEngineers, s)) ∧
    (∀ aid load l1 l2,
      engineersOf s.agent_loads = l1 ++ (aid, load) :: l2 →
      (∀ p ∈ l1, load.load_percentage < p.2.load_percentage) →
      (∀ p ∈ l2, load.load_percentage ≤ p.2.load_percentage) →
      (api_assign_task s tid none now).1 = AssignRes.assigned aid ∧
      lookupA (api_assign_task s tid none now).2.tasks_store tid =
        some { t with assigned_to := some aid,
                      status := TaskStatus.in_progress, updated_at := now } ∧
      lookupA (api_assign_task s tid none now).2.agent_loads aid =
        some { load with current_tasks := load.current_tasks + 1 }) := by
  constructor
  · intro he
    simp only [api_assign_task, ht, he]
    rfl
  · intro aid load l1 l2 hdec hl1 hl2
    cases hengs : engineersOf s.agent_loads with
    | nil =>
      rw [hengs] at hdec
      cases l1 <;> simp at hdec
    | cons x xs =>
      have hmin : minByLoad (engineersOf s.agent_loads) =
          some (xs.foldl minStep x) := by
        rw [hengs]
        rfl
      obtain ⟨a1, a2, hA, hA1, hA2⟩ := foldl_minStep_first xs x
      rw [hengs] at hdec
      have hr : xs.foldl minStep x = (aid, load) :=
        firstMin_unique a1 (x :: xs) a2 l1 l2 (xs.foldl minStep x) (aid, load)
          hA hA1 hA2 hdec hl1 hl2
      have hmem : (aid, load) ∈ s.agent_loads := by
        have hfil : (aid, load) ∈ engineersOf s.agent_loads := by
          rw [hengs, hdec]
          exact List.mem_append_right _ (List.mem_cons_self _ _)
        exact List.mem_of_mem_filter hfil
      have hlk : lookupA s.agent_loads aid = some load :=
        lookupA_eq_of_nodup_mem _ _ _ hnd hmem
      simp only [api_assign_task, ht, hmin, hr, Option.map_some', hlk]
      exact ⟨trivial, lookupA_setA_self _ _ _, lookupA_setA_self _ _ _⟩

/-- Witness for C6 at a concrete input: in c3state the only engineer is
Engineer1, which is the first minimum, so auto-assignment picks it. -/
theorem c6_witness :
    (api_assign_task c3state "TASK-1" none 3).1 = AssignRes.assigned "Engineer1" := by
  have h := c6_autopick_first_minimum c3state "TASK-1" c3task 3
    (by decide) (by decide)
  exact (h.2 "Engineer1" ⟨"Engineer1", "engineer", 0, 5⟩ [] []
    (by decide) (by simp) (by simp)).1

end MultiAgentPm
